import Mathlib

/-!
Shallow embedding of the inventory/order domain core of the Tally
fulfillment application, together with theorems checking the
natural-language specification against the code.

Conventions of the embedding:
* JavaScript numbers that stay integral are modelled as `Int`
  (`Nat` where the source value is a count); the one place the code
  manipulates `Infinity` (the seed of the minimum fold in
  `calculateSellable`) is modelled with `WithTop Int`, whose `⊤` plays
  the role of `Infinity`.
* A JS `Map` is modelled as an association list queried with `find?`
  (first matching entry), which matches `Map.get` on the maps the code
  builds (one entry per key).
* `undefined`/`null` fields are modelled with `Option`.
* JS `parseInt` is modelled including its whitespace skipping, optional
  sign, optional 0x base marker and longest-digit-run behaviour, with
  `none` standing for `NaN`.
-/

namespace Tally

/-! ## Bill-of-Materials calculator (src/lib/orderUtils.ts, calculateSellable) -/

/-- One line of a product's bill of materials: json `{ materialId, qty }`. -/
structure BomItem where
  materialId : String
  qty : Int
deriving DecidableEq, Repr

/-- The slice of a material row that `calculateSellable` reads. -/
structure MaterialStock where
  on_hand : Int
deriving DecidableEq, Repr

/-- The materials lookup `Map<string, { on_hand }>`, as an association list. -/
abbrev MaterialsMap := List (String × MaterialStock)

/-- `materialsMap.get(key)` on the association-list model. -/
def mapGet (m : MaterialsMap) (k : String) : Option MaterialStock :=
  (m.find? (fun p => p.1 == k)).map (fun p => p.2)

/-- JS `Math.floor(a / b)`: floor division on integers (the theorems only
use it with `1 ≤ b`, where JS real division followed by `Math.floor`
agrees with integer floor division). -/
def jsFloorDiv (a b : Int) : Int := Int.fdiv a b

/-- The body of the `reduce` in `calculateSellable`:
`(minSellable, item) => { if material missing return 0;
return Math.min(minSellable, Math.floor(material.on_hand / item.qty)) }`.
Note that a missing material resets the accumulator to `0` outright. -/
def sellableStep (m : MaterialsMap) (minSellable : WithTop Int) (item : BomItem) :
    WithTop Int :=
  match mapGet m item.materialId with
  | none => (0 : WithTop Int)
  | some material =>
      min minSellable ((jsFloorDiv material.on_hand item.qty : Int) : WithTop Int)

/-- `calculateSellable(bom, materialsMap)` from src/lib/orderUtils.ts:
returns `0` when the BOM is empty (the `!bom || bom.length === 0` guard),
otherwise folds `sellableStep` over the BOM seeded with `Infinity` (`⊤`). -/
def calculateSellable (bom : List BomItem) (m : MaterialsMap) : WithTop Int :=
  if bom.length = 0 then (0 : WithTop Int)
  else bom.foldl (sellableStep m) (⊤ : WithTop Int)

/-- Spec-side value of a single BOM line: `floor(on_hand / qty)` when the
material is present in the lookup, `0` (stock-out) when absent. -/
def lineContribution (m : MaterialsMap) (item : BomItem) : Int :=
  match mapGet m item.materialId with
  | none => 0
  | some material => jsFloorDiv material.on_hand item.qty

/-- Spec-side sellable quantity of a non-empty BOM: the minimum of the
line contributions over all BOM lines (`0` for the empty BOM, a case the
spec calls undefined and that this definition never relies on). -/
def sellableSpec (bom : List BomItem) (m : MaterialsMap) : Int :=
  match bom with
  | [] => 0
  | item :: rest => (rest.map (lineContribution m)).foldl min (lineContribution m item)

lemma lineContribution_nonneg (m : MaterialsMap) (item : BomItem)
    (hqty : 1 ≤ item.qty) (hstock : ∀ p ∈ m, 0 ≤ p.2.on_hand) :
    0 ≤ lineContribution m item := by
  unfold lineContribution
  cases hfind : mapGet m item.materialId with
  | none => simp
  | some material =>
      simp only
      obtain ⟨p, hp, hp2⟩ : ∃ p ∈ m, p.2 = material := by
        unfold mapGet at hfind
        cases hfind2 : m.find? (fun p => p.1 == item.materialId) with
        | none => simp [hfind2] at hfind
        | some p =>
            refine ⟨p, List.mem_of_find?_eq_some hfind2, ?_⟩
            simp [hfind2] at hfind
            exact hfind
      subst hp2
      exact Int.fdiv_nonneg (hstock p hp) (le_trans (by norm_num) hqty)

lemma sellableStep_coe (m : MaterialsMap) (a : Int) (ha : 0 ≤ a) (item : BomItem) :
    sellableStep m ((a : Int) : WithTop Int) item
      = ((min a (lineContribution m item) : Int) : WithTop Int) := by
  unfold sellableStep lineContribution
  cases hfind : mapGet m item.materialId with
  | none =>
      simp only
      rw [min_eq_right ha]
      norm_cast
  | some material =>
      simp only
      rw [WithTop.coe_min]

lemma foldl_sellableStep_coe (m : MaterialsMap) (bom : List BomItem) :
    ∀ a : Int, 0 ≤ a → (∀ i ∈ bom, 1 ≤ i.qty) → (∀ p ∈ m, 0 ≤ p.2.on_hand) →
    bom.foldl (sellableStep m) ((a : Int) : WithTop Int)
      = (((bom.map (lineContribution m)).foldl min a : Int) : WithTop Int) := by
  induction bom with
  | nil => intro a _ _ _; simp
  | cons item rest ih =>
      intro a ha hqty hstock
      have hqi : 1 ≤ item.qty := hqty item (List.mem_cons_self _ _)
      have hline : 0 ≤ lineContribution m item := lineContribution_nonneg m item hqi hstock
      simp only [List.foldl_cons, List.map_cons]
      rw [sellableStep_coe m a ha item]
      exact ih (min a (lineContribution m item)) (le_min ha hline)
        (fun i hi => hqty i (List.mem_cons_of_mem _ hi)) hstock

lemma sellableStep_top (m : MaterialsMap) (item : BomItem) :
    sellableStep m (⊤ : WithTop Int) item
      = ((lineContribution m item : Int) : WithTop Int) := by
  unfold sellableStep lineContribution
  cases mapGet m item.materialId with
  | none => norm_cast
  | some material => simp only; rw [min_eq_right le_top]

lemma foldl_min_nonneg (l : List Int) :
    ∀ a : Int, 0 ≤ a → (∀ x ∈ l, 0 ≤ x) → 0 ≤ l.foldl min a := by
  induction l with
  | nil => intro a ha _; simpa using ha
  | cons x xs ih =>
      intro a ha hl
      simp only [List.foldl_cons]
      exact ih (min a x) (le_min ha (hl x (List.mem_cons_self _ _)))
        (fun y hy => hl y (List.mem_cons_of_mem _ hy))

/-- C1: on a non-empty BOM whose line quantities are at least 1 and a
lookup whose on-hand values are non-negative, `calculateSellable` equals
the minimum over all BOM lines of `floor(on_hand / qty)`, a line with a
missing material contributing `0`. -/
theorem calculateSellable_eq_min_of_lines (bom : List BomItem) (m : MaterialsMap)
    (hne : bom ≠ []) (hqty : ∀ i ∈ bom, 1 ≤ i.qty)
    (hstock : ∀ p ∈ m, 0 ≤ p.2.on_hand) :
    calculateSellable bom m = ((sellableSpec bom m : Int) : WithTop Int) := by
  cases bom with
  | nil => exact absurd rfl hne
  | cons item rest =>
      have hqi : 1 ≤ item.qty := hqty item (List.mem_cons_self _ _)
      have hline : 0 ≤ lineContribution m item := lineContribution_nonneg m item hqi hstock
      unfold calculateSellable
      simp only [List.length_cons, List.foldl_cons, sellableStep_top m item]
      rw [if_neg (by simp)]
      rw [foldl_sellableStep_coe m rest (lineContribution m item) hline
        (fun i hi => hqty i (List.mem_cons_of_mem _ hi)) hstock]
      rfl

/-- Witness for C1: the spec's own worked example, a one-line BOM
`[{materialId := X, qty := 3}]` with `on_hand = 10`, sells `3`. -/
theorem calculateSellable_eq_min_of_lines_witness :
    calculateSellable [⟨"X", 3⟩] [("X", ⟨10⟩)]
      = ((sellableSpec [⟨"X", 3⟩] [("X", ⟨10⟩)] : Int) : WithTop Int) :=
  calculateSellable_eq_min_of_lines [⟨"X", 3⟩] [("X", ⟨10⟩)]
    (by decide)
    (by intro i hi; simp at hi; subst hi; decide)
    (by intro p hp; simp at hp; subst hp; decide)

/-- C2 counterexample: on an empty BOM `calculateSellable` returns `0`
itself, not a sentinel distinct from `0` (the claim asserts its result is
an undefined-sentinel distinct from `0`; this closed evaluation negates
that at the input `([], [])`). -/
theorem calculateSellable_empty_returns_zero :
    calculateSellable [] [] = (0 : WithTop Int) := rfl

/-- JS number-to-string on the result type of `calculateSellable`
(`Infinity` prints as "Infinity", integers in decimal). -/
def renderJsNumber : WithTop Int → String
  | ⊤ => "Infinity"
  | (n : Int) => toString n

/-- `getSellableQuantity(product)` from the Products page: renders an
em-dash for an absent or empty BOM by its own test, and otherwise the
decimal rendering of `calculateSellable`. -/
def getSellableQuantity (bom : Option (List BomItem)) (m : MaterialsMap) : String :=
  match bom with
  | none => "—"
  | some b => if b.length = 0 then "—" else renderJsNumber (calculateSellable b m)

/-- C2 amended: `calculateSellable` on an empty BOM returns `0` (not a
distinct sentinel); the undefined-rendering lives in the caller:
`getSellableQuantity` returns the em-dash for an absent or empty BOM by
its own emptiness test, without consulting `calculateSellable`. -/
theorem empty_bom_rendered_as_dash (m : MaterialsMap) :
    calculateSellable [] m = (0 : WithTop Int)
      ∧ getSellableQuantity none m = "—"
      ∧ getSellableQuantity (some []) m = "—" := by
  refine ⟨rfl, rfl, rfl⟩

/-- C10: with quantities at least 1 and non-negative stock, the result of
`calculateSellable` is a finite non-negative integer — in particular the
`Infinity` seed of the fold never survives. -/
theorem calculateSellable_finite_nonneg (bom : List BomItem) (m : MaterialsMap)
    (hqty : ∀ i ∈ bom, 1 ≤ i.qty) (hstock : ∀ p ∈ m, 0 ≤ p.2.on_hand) :
    ∃ n : Int, calculateSellable bom m = ((n : Int) : WithTop Int) ∧ 0 ≤ n := by
  cases bom with
  | nil => exact ⟨0, rfl, le_refl 0⟩
  | cons item rest =>
      have hqi : 1 ≤ item.qty := hqty item (List.mem_cons_self _ _)
      have hline : 0 ≤ lineContribution m item := lineContribution_nonneg m item hqi hstock
      have hrest : ∀ i ∈ rest, 1 ≤ i.qty := fun i hi => hqty i (List.mem_cons_of_mem _ hi)
      refine ⟨(rest.map (lineContribution m)).foldl min (lineContribution m item), ?_, ?_⟩
      · unfold calculateSellable
        simp only [List.length_cons, List.foldl_cons, sellableStep_top m item]
        rw [if_neg (by simp)]
        exact foldl_sellableStep_coe m rest (lineContribution m item) hline hrest hstock
      · refine foldl_min_nonneg _ _ hline ?_
        intro x hx
        obtain ⟨i, hi, rfl⟩ := List.mem_map.mp hx
        exact lineContribution_nonneg m i (hrest i hi) hstock

/-- Witness for C10: the two-line BOM of the spec's example evaluates to
a finite non-negative value. -/
theorem calculateSellable_finite_nonneg_witness :
    ∃ n : Int,
      calculateSellable [⟨"m1", 2⟩, ⟨"m2", 5⟩] [("m1", ⟨10⟩), ("m2", ⟨12⟩)]
        = ((n : Int) : WithTop Int) ∧ 0 ≤ n :=
  calculateSellable_finite_nonneg [⟨"m1", 2⟩, ⟨"m2", 5⟩] [("m1", ⟨10⟩), ("m2", ⟨12⟩)]
    (by intro i hi; simp at hi; rcases hi with h | h <;> (subst h; decide))
    (by intro p hp; simp at hp; rcases hp with h | h <;> (subst h; decide))

/-! ## Order code generator (src/lib/orderUtils.ts, generateOrderCode) -/

/-- Whitespace characters skipped by JS `parseInt`. -/
def isJsWhitespace (c : Char) : Bool :=
  c = ' ' || c = '\t' || c = '\n' || c = '\r' || c = '\x0b' || c = '\x0c'

/-- Hex digit recognizer of JS `parseInt(_, 16)`. -/
def isHexDigitJs (c : Char) : Bool :=
  c.isDigit || ('a' ≤ c && c ≤ 'f') || ('A' ≤ c && c ≤ 'F')

/-- Numeric value of a hex digit. -/
def hexDigitVal (c : Char) : Nat :=
  if c.isDigit then c.toNat - '0'.toNat
  else if 'a' ≤ c && c ≤ 'f' then c.toNat - 'a'.toNat + 10
  else c.toNat - 'A'.toNat + 10

/-- Strip a leading `0x`/`0X` base marker, as `parseInt(_, 16)` does. -/
def stripHexMarker : List Char → List Char
  | '0' :: 'x' :: rest => rest
  | '0' :: 'X' :: rest => rest
  | cs => cs

/-- Longest leading run of hex digits, `none` (JS `NaN`) when empty. -/
def parseHexDigits (cs : List Char) : Option Nat :=
  let ds := cs.takeWhile isHexDigitJs
  if ds = [] then none
  else some (ds.foldl (fun a c => 16 * a + hexDigitVal c) 0)

/-- JS `parseInt(s, 16)`: skip leading whitespace, optional sign, optional
`0x` marker, then the longest run of hex digits; `none` models `NaN`. -/
def jsParseIntHex (s : String) : Option Int :=
  match s.data.dropWhile isJsWhitespace with
  | [] => none
  | c :: rest =>
      if c = '-' then (parseHexDigits (stripHexMarker rest)).map (fun n => -(n : Int))
      else if c = '+' then (parseHexDigits (stripHexMarker rest)).map (fun n => (n : Int))
      else (parseHexDigits (stripHexMarker (c :: rest))).map (fun n => (n : Int))

/-- Character for one base-36 digit, as produced by JS `toString(36)`
(lower-case letters past 9). -/
def base36DigitChar (k : Nat) : Char :=
  if k < 10 then Char.ofNat ('0'.toNat + k) else Char.ofNat ('a'.toNat + (k - 10))

/-- Base-36 digit expansion, most significant digit first. The first
argument is fuel; `n` itself is always enough fuel. -/
def base36DigitsAux : Nat → Nat → List Char
  | 0, _ => []
  | fuel + 1, n =>
      if n = 0 then []
      else base36DigitsAux fuel (n / 36) ++ [base36DigitChar (n % 36)]

def base36Digits (n : Nat) : List Char := base36DigitsAux n n

/-- JS `n.toString(36)` for a non-negative number. -/
def jsNatToString36 (n : Nat) : String :=
  if n = 0 then "0" else String.mk (base36Digits n)

/-- JS `n.toString(36)` on integers (a leading minus for negatives). -/
def jsIntToString36 (i : Int) : String :=
  if i < 0 then "-" ++ jsNatToString36 i.natAbs else jsNatToString36 i.natAbs

/-- JS `n.toString(36)` where `n` may be `NaN` (modelled as `none`). -/
def jsNumToString36 : Option Int → String
  | none => "NaN"
  | some i => jsIntToString36 i

/-- ASCII model of JS `toUpperCase()`. -/
def jsToUpper (s : String) : String := String.mk (s.data.map Char.toUpper)

/-- JS global replace of the hyphen with the empty string. -/
def stripHyphens (s : String) : String := String.mk (s.data.filter (fun c => c ≠ '-'))

/-- JS `s.slice(-8)`: the last 8 characters (the whole string if shorter). -/
def sliceLast8 (s : String) : String := String.mk (s.data.drop (s.data.length - 8))

/-- JS `s.padStart(2, '0')`. -/
def padStart2 (s : String) : String :=
  if s.length ≥ 2 then s else if s.length = 1 then "0" ++ s else "00"

/-- The two-digit year component: `(year % 100).toString().padStart(2, '0')`. -/
def yearPart (year : Nat) : String := padStart2 (toString (year % 100))

/-- `generateOrderCode(orderId)` from src/lib/orderUtils.ts, with the
implicit current year made an explicit parameter. -/
def generateOrderCode (orderId : String) (currentYear : Nat) : String :=
  let uuidHex := sliceLast8 (stripHyphens orderId)
  let number := jsParseIntHex uuidHex
  let base36 := jsToUpper (jsNumToString36 number)
  yearPart currentYear ++ "-" ++ base36

/-- `generateOrderCode` as invoked at a call site that may omit the
identifier (JS passes `undefined`): `orderId.replace` on `undefined`
throws a `TypeError`, modelled as `Except.error`. -/
def generateOrderCodeCall (orderId : Option String) (currentYear : Nat) :
    Except String String :=
  match orderId with
  | none => Except.error "TypeError: orderId is undefined"
  | some id => Except.ok (generateOrderCode id currentYear)

/-- Digits or upper-case letters: the alphabet `[0-9A-Z]`. -/
def isUpperBase36Char (c : Char) : Bool := c.isDigit || ('A' ≤ c && c ≤ 'Z')

lemma base36DigitsAux_mem (fuel : Nat) :
    ∀ n c, c ∈ base36DigitsAux fuel n → ∃ k, k < 36 ∧ c = base36DigitChar k := by
  induction fuel with
  | zero => intro n c hc; simp [base36DigitsAux] at hc
  | succ fuel ih =>
      intro n c hc
      rw [base36DigitsAux] at hc
      by_cases hn : n = 0
      · simp [hn] at hc
      · rw [if_neg hn, List.mem_append] at hc
        rcases hc with hc | hc
        · exact ih _ _ hc
        · simp at hc
          exact ⟨n % 36, Nat.mod_lt _ (by norm_num), hc⟩

lemma base36DigitChar_toUpper_ok :
    ∀ k, k < 36 → isUpperBase36Char (base36DigitChar k).toUpper = true := by decide

lemma jsNatToString36_toUpper_ok (n : Nat) :
    ((jsToUpper (jsNatToString36 n)).data.all isUpperBase36Char) = true := by
  unfold jsNatToString36
  by_cases hn : n = 0
  · rw [if_pos hn]; decide
  · rw [if_neg hn]
    unfold jsToUpper
    rw [List.all_eq_true]
    intro c hc
    simp only [List.mem_map] at hc
    obtain ⟨c0, hc0, rfl⟩ := hc
    obtain ⟨k, hk, rfl⟩ := base36DigitsAux_mem n n c0 hc0
    exact base36DigitChar_toUpper_ok k hk

lemma jsParseIntHex_nonneg (s : String) (hs : '-' ∉ s.data) :
    ∀ n : Int, jsParseIntHex s = some n → 0 ≤ n := by
  intro n hn
  unfold jsParseIntHex at hn
  rcases hdrop : s.data.dropWhile isJsWhitespace with _ | ⟨c, rest⟩
  · rw [hdrop] at hn; exact absurd hn (by simp)
  · simp only [hdrop] at hn
    have hcmem : c ∈ s.data :=
      (List.dropWhile_sublist (p := isJsWhitespace) (l := s.data)).mem
        (hdrop ▸ List.mem_cons_self c rest)
    have hcne : ¬ c = '-' := fun h => hs (h ▸ hcmem)
    rw [if_neg hcne] at hn
    by_cases hplus : c = '+'
    · rw [if_pos hplus] at hn
      rcases hparse : parseHexDigits (stripHexMarker rest) with _ | k
      · rw [hparse] at hn; exact absurd hn (by simp)
      · rw [hparse] at hn
        simp at hn
        omega
    · rw [if_neg hplus] at hn
      rcases hparse : parseHexDigits (stripHexMarker (c :: rest)) with _ | k
      · rw [hparse] at hn; exact absurd hn (by simp)
      · rw [hparse] at hn
        simp at hn
        omega

lemma stripped_tail_no_hyphen (id : String) :
    '-' ∉ (sliceLast8 (stripHyphens id)).data := by
  intro hmem
  unfold sliceLast8 stripHyphens at hmem
  have h2 : '-' ∈ (id.data.filter (fun c => c ≠ '-')) :=
    (List.drop_sublist _ _).mem hmem
  have := (List.mem_filter.mp h2).2
  simp at this

lemma yearPart_shape :
    ∀ y, y < 100 →
      (padStart2 (toString y)).length = 2
        ∧ ((padStart2 (toString y)).data.all Char.isDigit) = true := by decide

/-- C9: the generated order code is the two least-significant decimal
digits of the year zero-padded to width 2, a hyphen, and a segment over
the alphabet `[0-9A-Z]`; whenever the hyphen-stripped 8-character tail of
the identifier parses as hex to `n`, that segment is the upper-cased
base-36 rendering of `n`. (Determinism is immediate: the embedding is a
pure function of the identifier and the year.) -/
theorem generateOrderCode_format (id : String) (year : Nat) :
    ∃ seg : String,
      generateOrderCode id year = yearPart year ++ "-" ++ seg
        ∧ (yearPart year).length = 2
        ∧ ((yearPart year).data.all Char.isDigit) = true
        ∧ (seg.data.all isUpperBase36Char) = true
        ∧ ∀ n : Int, jsParseIntHex (sliceLast8 (stripHyphens id)) = some n →
            seg = jsToUpper (jsIntToString36 n) := by
  refine ⟨jsToUpper (jsNumToString36 (jsParseIntHex (sliceLast8 (stripHyphens id)))),
    rfl, (yearPart_shape (year % 100) (Nat.mod_lt _ (by norm_num))).1,
    (yearPart_shape (year % 100) (Nat.mod_lt _ (by norm_num))).2, ?_, ?_⟩
  · rcases hparse : jsParseIntHex (sliceLast8 (stripHyphens id)) with _ | n
    · decide
    · have hn0 : 0 ≤ n :=
        jsParseIntHex_nonneg _ (stripped_tail_no_hyphen id) n hparse
      simp only [jsNumToString36, jsIntToString36]
      rw [if_neg (not_lt.mpr hn0)]
      exact jsNatToString36_toUpper_ok n.natAbs
  · intro n hn
    rw [hn]
    rfl

/-- Witness for C9 at a concrete UUID-shaped identifier and year. -/
theorem generateOrderCode_format_witness :
    ∃ seg : String,
      generateOrderCode "a1b2c3d4-e5f6a7b8" 2025
          = yearPart 2025 ++ "-" ++ seg
        ∧ (yearPart 2025).length = 2
        ∧ ((yearPart 2025).data.all Char.isDigit) = true
        ∧ (seg.data.all isUpperBase36Char) = true
        ∧ ∀ n : Int,
            jsParseIntHex (sliceLast8 (stripHyphens "a1b2c3d4-e5f6a7b8")) = some n →
              seg = jsToUpper (jsIntToString36 n) :=
  generateOrderCode_format "a1b2c3d4-e5f6a7b8" 2025

/-- C3: the bulk CSV import invokes the order-code generator without an
identifier; the code has no fallback — the call throws (a `TypeError`
from `orderId.replace` on `undefined`) instead of deriving a surrogate
identifier, for every current year. -/
theorem generateOrderCode_without_id_throws (year : Nat) :
    generateOrderCodeCall none year = Except.error "TypeError: orderId is undefined" :=
  rfl

/-! ## Inventory ledger (fulfillment page: updateQuantity and the plus and minus buttons)

`cost` (a float) and `created_at` (a timestamp) are carried by the row but
never read by the verified operations, so they are left out of the record. -/

structure Material where
  id : String
  name : String
  variant : Option String
  sku : String
  on_hand : Int
  reorder_point : Int
  archived : Bool
deriving DecidableEq, Repr

/-- `isLowStock(material)` from the Materials page. -/
def isLowStock (m : Material) : Bool := m.on_hand < m.reorder_point

/-- The local-state effect of `updateQuantity(materialId, newQuantity)`:
`materials.map(m => m.id === materialId ? { ...m, on_hand: newQuantity } : m)`.
The same absolute value is what the persistence write sends. -/
def updateQuantityLocal (materials : List Material) (materialId : String)
    (newQuantity : Int) : List Material :=
  materials.map (fun m => if m.id = materialId then { m with on_hand := newQuantity } else m)

/-- The two stock buttons exposed by the Materials page. -/
inductive StockOp where
  | inc
  | dec
deriving DecidableEq, Repr

/-- The absolute value each button click sends:
increment is `material.on_hand + 1`, decrement is
`Math.max(0, material.on_hand - 1)` (clamped at the calling boundary). -/
def clickNewValue : StockOp → Material → Int
  | .inc, m => m.on_hand + 1
  | .dec, m => max 0 (m.on_hand - 1)

/-- One button click on the material with the given id: the handler reads
the rendered material and calls `updateQuantity` with the computed value. -/
def applyClick (materials : List Material) (mid : String) (op : StockOp) :
    List Material :=
  match materials.find? (fun m => m.id == mid) with
  | none => materials
  | some m => updateQuantityLocal materials mid (clickNewValue op m)

/-- A whole interaction sequence of stock-button clicks. -/
def applyClicks (materials : List Material) (clicks : List (String × StockOp)) :
    List Material :=
  clicks.foldl (fun ms c => applyClick ms c.1 c.2) materials

lemma clickNewValue_nonneg (op : StockOp) (m : Material) (h : 0 ≤ m.on_hand) :
    0 ≤ clickNewValue op m := by
  cases op with
  | inc => simpa [clickNewValue] using by omega
  | dec => simp [clickNewValue]

lemma applyClick_nonneg (materials : List Material) (mid : String) (op : StockOp)
    (h : ∀ m ∈ materials, 0 ≤ m.on_hand) :
    ∀ m ∈ applyClick materials mid op, 0 ≤ m.on_hand := by
  intro m hm
  unfold applyClick at hm
  rcases hfind : materials.find? (fun m => m.id == mid) with _ | m0
  · rw [hfind] at hm; exact h m hm
  · rw [hfind] at hm
    unfold updateQuantityLocal at hm
    obtain ⟨m1, hm1, rfl⟩ := List.mem_map.mp hm
    by_cases hid : m1.id = mid
    · rw [if_pos hid]
      exact clickNewValue_nonneg op m0 (h m0 (List.mem_of_find?_eq_some hfind))
    · rw [if_neg hid]
      exact h m1 hm1

/-- C5: starting from non-negative stock, any sequence of increment and
decrement clicks keeps every material's `on_hand` non-negative, and a
decrement issued at `on_hand ≤ 0` sends exactly `0` (the clamp at the
calling boundary). -/
theorem stock_never_negative (materials : List Material)
    (clicks : List (String × StockOp))
    (h : ∀ m ∈ materials, 0 ≤ m.on_hand) :
    (∀ m ∈ applyClicks materials clicks, 0 ≤ m.on_hand)
      ∧ (∀ m : Material, m.on_hand ≤ 0 → clickNewValue .dec m = 0) := by
  constructor
  · induction clicks generalizing materials with
    | nil => intro m hm; exact h m hm
    | cons c cs ih =>
        intro m hm
        exact ih (applyClick materials c.1 c.2)
          (applyClick_nonneg materials c.1 c.2 h) m hm
  · intro m hm
    simp only [clickNewValue]
    omega

/-- Witness for C5: a material at zero stock, decremented and then
incremented, stays non-negative. -/
theorem stock_never_negative_witness :
    (∀ m ∈ applyClicks [⟨"m1", "Shirt", none, "GT-1", 0, 5, false⟩]
        [("m1", StockOp.dec), ("m1", StockOp.inc)], 0 ≤ m.on_hand)
      ∧ (∀ m : Material, m.on_hand ≤ 0 → clickNewValue .dec m = 0) :=
  stock_never_negative [⟨"m1", "Shirt", none, "GT-1", 0, 5, false⟩]
    [("m1", StockOp.dec), ("m1", StockOp.inc)]
    (by intro m hm; simp at hm; subst hm; decide)

/-! ## Order status updates (fulfillment page and order detail page) -/

/-- An order row; `created_at` (a timestamp) is never read by the
status-update logic and is left out. -/
structure Order where
  id : String
  code : Option String
  channel : String
  external_id : Option String
  customer_name : Option String
  status : String
  carrier : Option String
  tracking : Option String
deriving DecidableEq, Repr

/-- A status-update request `{status, carrier?, tracking?}`: `none` in
`carrier`/`tracking` models the parameter being omitted (`undefined`), in
which case the assembled `updateData` does not contain the field. -/
structure StatusPatch where
  status : String
  carrier : Option String
  tracking : Option String
deriving DecidableEq, Repr

/-- The persisted effect of the `update(updateData)` write: `status`
always, `carrier`/`tracking` exactly when the parameter was provided. -/
def applyPatch (o : Order) (p : StatusPatch) : Order :=
  { o with
    status := p.status
    carrier := match p.carrier with | none => o.carrier | some c => some c
    tracking := match p.tracking with | none => o.tracking | some t => some t }

/-- JS falsy-or on an optional string against a nullable string:
`a || b` where `undefined` and the empty string are falsy. -/
def jsOrString (a b : Option String) : Option String :=
  match a with
  | none => b
  | some s => if s = "" then b else some s

/-- The fulfillment page's local copy after a successful write:
`{ ...order, status, carrier: carrier || order.carrier,
tracking: tracking || order.tracking }`. -/
def fulfillmentLocalOrder (o : Order) (p : StatusPatch) : Order :=
  { o with
    status := p.status
    carrier := jsOrString p.carrier o.carrier
    tracking := jsOrString p.tracking o.tracking }

/-- The order detail page's local copy after a successful write:
the spread `{ ...prev, ...updateData }`. -/
def detailLocalOrder (o : Order) (p : StatusPatch) : Order :=
  { o with
    status := p.status
    carrier := match p.carrier with | none => o.carrier | some c => some c
    tracking := match p.tracking with | none => o.tracking | some t => some t }

/-- The DB effect of the status write on the orders table. -/
def dbApplyPatch (db : List Order) (orderId : String) (p : StatusPatch) :
    List Order :=
  db.map (fun o => if o.id = orderId then applyPatch o p else o)

/-- `updateOrderStatus` on the fulfillment page over (db, displayed list):
on success both the row and the displayed copy change; on failure the
catch block leaves both untouched (it only raises a toast). -/
def updateOrderStatusFulfillment (writeOk : Bool) (db display : List Order)
    (orderId : String) (p : StatusPatch) : List Order × List Order :=
  if writeOk then
    (dbApplyPatch db orderId p,
      display.map (fun o => if o.id = orderId then fulfillmentLocalOrder o p else o))
  else (db, display)

/-- `updateOrderStatus` on the order detail page over (db, displayed
order): bails out when no order is loaded; on success it applies the
spread of `updateData`; on failure it changes nothing. -/
def updateOrderStatusDetail (writeOk : Bool) (db : List Order)
    (display : Option Order) (p : StatusPatch) : List Order × Option Order :=
  match display with
  | none => (db, none)
  | some o =>
      if writeOk then (dbApplyPatch db o.id p, some (detailLocalOrder o p))
      else (db, some o)

/-- C4 counterexample: an update carrying the empty string as carrier and
tracking is persisted as written, but the fulfillment page's displayed
copy keeps the old carrier and tracking — display and written patch
disagree after a successful write. -/
theorem fulfillment_empty_string_patch_mismatch :
    fulfillmentLocalOrder
        ⟨"o1", some "25-1", "MANUAL", none, some "Ada", "PENDING", some "UPS", some "1Z999"⟩
        ⟨"SHIPPED", some "", some ""⟩
      ≠ applyPatch
        ⟨"o1", some "25-1", "MANUAL", none, some "Ada", "PENDING", some "UPS", some "1Z999"⟩
        ⟨"SHIPPED", some "", some ""⟩ := by decide

/-- C4 amended: the order-detail page's displayed copy — for EVERY patch,
empty-string fields included — equals the previous order with exactly the
written patch applied on success, and a failed write changes nothing (on
either page); the fulfillment page matches the written patch exactly
whenever every provided carrier/tracking value is a non-empty string
(when an empty string is provided, the write persists it but that page's
display keeps the prior value). -/
theorem order_status_update_atomic (o : Order) (p : StatusPatch) :
    detailLocalOrder o p = applyPatch o p
      ∧ (∀ db, updateOrderStatusDetail true db (some o) p
          = (dbApplyPatch db o.id p, some (applyPatch o p)))
      ∧ (∀ db, updateOrderStatusDetail false db (some o) p = (db, some o))
      ∧ (∀ db display orderId,
          updateOrderStatusFulfillment false db display orderId p = (db, display))
      ∧ ((∀ c, p.carrier = some c → c ≠ "") → (∀ t, p.tracking = some t → t ≠ "") →
          fulfillmentLocalOrder o p = applyPatch o p) := by
  refine ⟨rfl, fun db => rfl, fun db => rfl, fun db display orderId => rfl, ?_⟩
  intro hc ht
  unfold fulfillmentLocalOrder applyPatch jsOrString
  rcases p with ⟨pst, pc, pt⟩
  rcases pc with _ | c
  · rcases pt with _ | t
    · rfl
    · simp only
      rw [if_neg (ht t rfl)]
  · rcases pt with _ | t
    · simp only
      rw [if_neg (hc c rfl)]
    · simp only
      rw [if_neg (hc c rfl), if_neg (ht t rfl)]

/-- Witness for C4: the spec's example transition, `PENDING → SHIPPED`
with carrier "UPS" and tracking "1Z999" (all conjuncts discharged), plus
the detail-page exact-patch guarantee at the empty-string patch, the case
the correction is about. -/
theorem order_status_update_atomic_witness :
    (detailLocalOrder
          ⟨"o1", some "25-1", "MANUAL", none, some "Ada", "PENDING", some "UPS", some "1Z"⟩
          ⟨"SHIPPED", some "UPS", some "1Z999"⟩
        = applyPatch
          ⟨"o1", some "25-1", "MANUAL", none, some "Ada", "PENDING", some "UPS", some "1Z"⟩
          ⟨"SHIPPED", some "UPS", some "1Z999"⟩
      ∧ (∀ db, updateOrderStatusDetail true db
          (some ⟨"o1", some "25-1", "MANUAL", none, some "Ada", "PENDING", some "UPS", some "1Z"⟩)
          ⟨"SHIPPED", some "UPS", some "1Z999"⟩
          = (dbApplyPatch db
              (Order.mk "o1" (some "25-1") "MANUAL" none (some "Ada") "PENDING" (some "UPS") (some "1Z")).id
              ⟨"SHIPPED", some "UPS", some "1Z999"⟩,
              some (applyPatch
                ⟨"o1", some "25-1", "MANUAL", none, some "Ada", "PENDING", some "UPS", some "1Z"⟩
                ⟨"SHIPPED", some "UPS", some "1Z999"⟩)))
      ∧ (∀ db, updateOrderStatusDetail false db
          (some ⟨"o1", some "25-1", "MANUAL", none, some "Ada", "PENDING", some "UPS", some "1Z"⟩)
          ⟨"SHIPPED", some "UPS", some "1Z999"⟩
          = (db, some ⟨"o1", some "25-1", "MANUAL", none, some "Ada", "PENDING", some "UPS", some "1Z"⟩))
      ∧ (∀ db display orderId,
          updateOrderStatusFulfillment false db display orderId
            ⟨"SHIPPED", some "UPS", some "1Z999"⟩ = (db, display))
      ∧ fulfillmentLocalOrder
          ⟨"o1", some "25-1", "MANUAL", none, some "Ada", "PENDING", some "UPS", some "1Z"⟩
          ⟨"SHIPPED", some "UPS", some "1Z999"⟩
        = applyPatch
          ⟨"o1", some "25-1", "MANUAL", none, some "Ada", "PENDING", some "UPS", some "1Z"⟩
          ⟨"SHIPPED", some "UPS", some "1Z999"⟩)
    ∧ detailLocalOrder
          ⟨"o1", some "25-1", "MANUAL", none, some "Ada", "PENDING", some "UPS", some "1Z"⟩
          ⟨"SHIPPED", some "", some ""⟩
        = applyPatch
          ⟨"o1", some "25-1", "MANUAL", none, some "Ada", "PENDING", some "UPS", some "1Z"⟩
          ⟨"SHIPPED", some "", some ""⟩ := by
  refine ⟨?_, (order_status_update_atomic
    ⟨"o1", some "25-1", "MANUAL", none, some "Ada", "PENDING", some "UPS", some "1Z"⟩
    ⟨"SHIPPED", some "", some ""⟩).1⟩
  have h := order_status_update_atomic
    ⟨"o1", some "25-1", "MANUAL", none, some "Ada", "PENDING", some "UPS", some "1Z"⟩
    ⟨"SHIPPED", some "UPS", some "1Z999"⟩
  exact ⟨h.1, h.2.1, h.2.2.1, h.2.2.2.1,
    h.2.2.2.2 (by intro c hcc; simp at hcc; subst hcc; decide)
      (by intro t htt; simp at htt; subst htt; decide)⟩

/-! ## CSV import reconciler (Integrations page: handleFileUpload and importOrders) -/

/-- One parsed CSV data row. Papaparse yields string cells; a missing
cell and an empty cell are both falsy for the row-validity test, so the
string fields use `""` for absent values, while `qty` keeps the
missing/present distinction (it is fed through optional chaining). -/
structure CSVRow where
  external_id : String
  channel : String
  customer_name : String
  sku : String
  qty : Option String
deriving DecidableEq, Repr

/-- Longest leading run of decimal digits, `none` (JS `NaN`) when empty. -/
def parseDecDigits (cs : List Char) : Option Nat :=
  let ds := cs.takeWhile Char.isDigit
  if ds = [] then none
  else some (ds.foldl (fun a c => 10 * a + (c.toNat - '0'.toNat)) 0)

/-- Digit run after the optional sign of default-radix `parseInt`: a
`0x` or `0X` marker switches to hexadecimal, otherwise decimal. -/
def parseDigitsDefaultRadix : List Char → Option Nat
  | '0' :: 'x' :: rest => parseHexDigits rest
  | '0' :: 'X' :: rest => parseHexDigits rest
  | cs => parseDecDigits cs

/-- JS `parseInt(s)` with no radix argument. -/
def jsParseIntDefault (s : String) : Option Int :=
  match s.data.dropWhile isJsWhitespace with
  | [] => none
  | c :: rest =>
      if c = '-' then (parseDigitsDefaultRadix rest).map (fun n => -(n : Int))
      else if c = '+' then (parseDigitsDefaultRadix rest).map (fun n => (n : Int))
      else (parseDigitsDefaultRadix (c :: rest)).map (fun n => (n : Int))

/-- The parse of the raw qty cell: `none` both for a missing cell
(optional chaining yields `undefined`, `parseInt(undefined)` is `NaN`)
and for an unparsable string. -/
def qtyParse (q : Option String) : Option Int :=
  match q with
  | none => none
  | some s => jsParseIntDefault s

/-- The qty stored on a grouped line: `parseInt(row.qty?.toString()) || 1`
— the JS falsy-or replaces both `NaN` and `0` by `1` and keeps every
other value, negative parses included. -/
def parseQty (q : Option String) : Int :=
  match qtyParse q with
  | none => 1
  | some n => if n = 0 then 1 else n

/-- An accumulated import group. -/
structure GroupedOrder where
  channel : String
  external_id : String
  customer_name : String
  lines : List (String × Int)
deriving DecidableEq, Repr

/-- The row filter of the grouping loop:
`if (!row.external_id || !row.channel || !row.sku) continue`. -/
def rowValid (r : CSVRow) : Bool :=
  !(r.external_id == "") && !(r.channel == "") && !(r.sku == "")

/-- The grouping key: the template string `channel + "-" + external_id`. -/
def rowKey (r : CSVRow) : String := r.channel ++ "-" ++ r.external_id

/-- The `{sku, qty}` line a row contributes. -/
def rowLine (r : CSVRow) : String × Int := (r.sku, parseQty r.qty)

/-- Appending one line to the group stored under `key`. -/
def bumpGroup (gs : List (String × GroupedOrder)) (key : String)
    (line : String × Int) : List (String × GroupedOrder) :=
  gs.map (fun p => if p.1 = key then (p.1, { p.2 with lines := p.2.lines ++ [line] }) else p)

/-- One iteration of the grouping loop over the insertion-ordered map of
groups: invalid rows are skipped; a first row under its key creates the
group (capturing that row's channel, external id and customer name); a
later row only appends its line. -/
def addRowToGroups (gs : List (String × GroupedOrder)) (r : CSVRow) :
    List (String × GroupedOrder) :=
  if rowValid r then
    match gs.find? (fun p => p.1 == rowKey r) with
    | none => gs ++ [(rowKey r, ⟨r.channel, r.external_id, r.customer_name, [rowLine r]⟩)]
    | some _ => bumpGroup gs (rowKey r) (rowLine r)
  else gs

/-- The whole grouping pass of `handleFileUpload`. -/
def groupRows (rows : List CSVRow) : List (String × GroupedOrder) :=
  rows.foldl addRowToGroups []

/-- Spec-side customer name of C8: the first non-empty name among the
group's rows (empty when there is none). -/
def specCustomerName (names : List String) : String :=
  (names.find? (fun s => !(s == ""))).getD ""

/-- Spec-side qty of C8: the parsed integer, with `1` substituted when
parsing fails and also for any parse `≤ 0`. -/
def specQty (q : Option String) : Int :=
  match qtyParse q with
  | none => 1
  | some n => if n ≤ 0 then 1 else n

/-! ### The import pass against the database -/

/-- An order line insert. -/
structure OrderLine where
  order_id : String
  product_id : String
  qty : Int
deriving DecidableEq, Repr

/-- The slice of a product row the import reads. -/
structure CatalogProduct where
  id : String
  sku : String
  archived : Bool
deriving DecidableEq, Repr

/-- The database tables the import touches. -/
structure ImportDB where
  orders : List Order
  orderLines : List OrderLine
  products : List CatalogProduct
deriving DecidableEq, Repr

/-- The existing-order lookup: a select filtered on `external_id` and
`channel` finished with `.single()`, which yields a row exactly when one
row matches (the import destructures `data` only, so both the zero-row
and the several-row error cases look like "not found"). -/
def findExistingOrder (db : ImportDB) (channel externalId : String) : Option Order :=
  match db.orders.filter
      (fun o => o.external_id == some externalId && o.channel == channel) with
  | [o] => some o
  | _ => none

/-- An entry of the import summary lists. -/
structure ImportEntry where
  code : Option String
  external_id : String
  channel : String
deriving DecidableEq, Repr

/-- The evolving state of `importOrders`: the database plus the three
accumulators. -/
structure ImportState where
  db : ImportDB
  newOrders : List ImportEntry
  existingOrders : List ImportEntry
  errors : List String
deriving DecidableEq, Repr

/-- Processing of one group by `importOrders`: an existing (channel,
external_id) match is recorded under existing and skipped; otherwise the
line SKUs are resolved against the non-archived catalog, an empty
resolution records a "no products" error; otherwise the creation path
runs — and its first step, `generateOrderCode()` with no identifier,
throws before any insert reaches the database, so the surrounding catch
records a failure for the group and the database is untouched. -/
def importGroupStep (st : ImportState) (g : GroupedOrder) : ImportState :=
  match findExistingOrder st.db g.channel g.external_id with
  | some o =>
      { st with existingOrders := st.existingOrders ++ [⟨o.code, g.external_id, g.channel⟩] }
  | none =>
      let skus := g.lines.map Prod.fst
      let products := st.db.products.filter (fun p => skus.contains p.sku && !p.archived)
      if products = [] then
        { st with errors := st.errors ++ ["No products found for order " ++ g.external_id] }
      else
        { st with errors := st.errors ++ ["Failed to import order " ++ g.external_id] }

/-- `importOrders(orders)`: sequential processing of the groups. -/
def importOrders (groups : List GroupedOrder) (db : ImportDB) : ImportState :=
  groups.foldl importGroupStep ⟨db, [], [], []⟩

/-- The summary entry recorded for a group that matches an existing
order. -/
def existingEntryFor (db : ImportDB) (g : GroupedOrder) : ImportEntry :=
  ⟨(findExistingOrder db g.channel g.external_id).bind (fun o => o.code),
    g.external_id, g.channel⟩

/-! ### Grouping characterization -/

lemma bumpGroup_find?_eq (gs : List (String × GroupedOrder)) (key : String)
    (line : String × Int) :
    (bumpGroup gs key line).find? (fun p => p.1 == key)
      = (gs.find? (fun p => p.1 == key)).map
          (fun p => (p.1, { p.2 with lines := p.2.lines ++ [line] })) := by
  induction gs with
  | nil => rfl
  | cons p gs ih =>
      simp only [bumpGroup, List.map_cons] at ih ⊢
      by_cases h : p.1 = key
      · have hb : (p.1 == key) = true := by simp [h]
        simp [List.find?, h, hb]
      · have hb : (p.1 == key) = false := by simp [h]
        simp [List.find?, h, hb, ih]

lemma bumpGroup_find?_ne (gs : List (String × GroupedOrder)) (key k : String)
    (line : String × Int) (hne : ¬ key = k) :
    (bumpGroup gs key line).find? (fun p => p.1 == k)
      = gs.find? (fun p => p.1 == k) := by
  induction gs with
  | nil => rfl
  | cons p gs ih =>
      simp only [bumpGroup, List.map_cons] at ih ⊢
      by_cases h : p.1 = key
      · have hpk : ¬ p.1 = k := fun hh => hne (h ▸ hh)
        have hb : (p.1 == k) = false := by simp [hpk]
        have hb2 : (key == k) = false := by simp [hne]
        simp [List.find?, h, hb, hb2, ih]
      · by_cases hk : p.1 = k
        · have hb : (p.1 == k) = true := by simp [hk]
          simp [List.find?, h, hb]
        · have hb : (p.1 == k) = false := by simp [hk]
          simp [List.find?, h, hb, ih]

/-- Complete characterization of the grouping loop: what the map holds
under a key after folding the rows, as a function of the rows that are
valid and carry that key. -/
lemma groupRows_go (rows : List CSVRow) :
    ∀ (gs : List (String × GroupedOrder)) (k : String),
    (rows.foldl addRowToGroups gs).find? (fun p => p.1 == k)
      = match gs.find? (fun p => p.1 == k) with
        | some p => some (p.1, { p.2 with lines := p.2.lines
            ++ (rows.filter (fun r => rowValid r && (rowKey r == k))).map rowLine })
        | none =>
            match rows.filter (fun r => rowValid r && (rowKey r == k)) with
            | [] => none
            | r0 :: rest => some (k, ⟨r0.channel, r0.external_id, r0.customer_name,
                (r0 :: rest).map rowLine⟩) := by
  induction rows with
  | nil =>
      intro gs k
      rcases hfind : gs.find? (fun p => p.1 == k) with _ | p
      · simp [hfind]
      · simp [hfind]
  | cons r rest ih =>
      intro gs k
      simp only [List.foldl_cons, List.filter_cons]
      by_cases hv : rowValid r = true
      · by_cases hkey : rowKey r = k
        · subst hkey
          rw [if_pos (by simp [hv])]
          rcases hfind : gs.find? (fun p => p.1 == rowKey r) with _ | p
          · have hgs : addRowToGroups gs r
                = gs ++ [(rowKey r, ⟨r.channel, r.external_id, r.customer_name, [rowLine r]⟩)] := by
              unfold addRowToGroups
              rw [if_pos hv, hfind]
            rw [hgs, ih _ (rowKey r), List.find?_append, hfind]
            simp [List.find?, hfind]
          · have hgs : addRowToGroups gs r = bumpGroup gs (rowKey r) (rowLine r) := by
              unfold addRowToGroups
              rw [if_pos hv, hfind]
            rw [hgs, ih _ (rowKey r), bumpGroup_find?_eq, hfind]
            simp [List.append_assoc]
        · rw [if_neg (by simp [hkey])]
          have hsame : (addRowToGroups gs r).find? (fun p => p.1 == k)
              = gs.find? (fun p => p.1 == k) := by
            unfold addRowToGroups
            rw [if_pos hv]
            rcases hfind : gs.find? (fun p => p.1 == rowKey r) with _ | p
            · simp only [hfind]
              rw [List.find?_append]
              have hb : (rowKey r == k) = false := by simp [hkey]
              simp [List.find?, hb]
            · simp only [hfind]
              exact bumpGroup_find?_ne gs (rowKey r) k (rowLine r) hkey
          rw [ih (addRowToGroups gs r) k, hsame]
      · have hvb : rowValid r = false := by simpa using hv
        have hgs : addRowToGroups gs r = gs := by
          unfold addRowToGroups
          rw [if_neg (by simp [hvb])]
        rw [if_neg (by simp [hvb]), hgs, ih gs k]

/-- C7 counterexample: two valid rows that agree on neither channel nor
external id — (channel "A-B", id "C") and (channel "A", id "B-C") — are
placed in the same import group, because the group key is the plain
string concatenation channel-hyphen-id and both rows yield "A-B-C". -/
theorem grouping_key_collision :
    groupRows [⟨"C", "A-B", "Ada", "S1", some "1"⟩, ⟨"B-C", "A", "", "S2", some "1"⟩]
        = [("A-B-C", ⟨"A-B", "C", "Ada", [("S1", 1), ("S2", 1)]⟩)]
      ∧ ("A-B" : String) ≠ "A" ∧ ("C" : String) ≠ "B-C" := by decide

/-- C7 amended: valid rows that agree on both channel and external id
always land in the same group (their concatenated keys coincide), that
group's key being the shared concatenation; the converse direction of
the original claim fails by `grouping_key_collision`. -/
theorem grouping_same_pair_same_group (rows : List CSVRow) (r1 r2 : CSVRow)
    (h1 : r1 ∈ rows) (h2 : r2 ∈ rows)
    (hv1 : rowValid r1 = true) (hv2 : rowValid r2 = true)
    (hch : r1.channel = r2.channel) (hext : r1.external_id = r2.external_id) :
    ∃ g : GroupedOrder,
      (groupRows rows).find? (fun p => p.1 == rowKey r1) = some (rowKey r1, g)
        ∧ rowLine r1 ∈ g.lines ∧ rowLine r2 ∈ g.lines := by
  have hkk : rowKey r2 = rowKey r1 := by unfold rowKey; rw [hch, hext]
  have hmain := groupRows_go rows [] (rowKey r1)
  simp only [List.find?_nil] at hmain
  have hm1 : r1 ∈ rows.filter (fun r => rowValid r && (rowKey r == rowKey r1)) :=
    List.mem_filter.mpr ⟨h1, by simp [hv1]⟩
  have hm2 : r2 ∈ rows.filter (fun r => rowValid r && (rowKey r == rowKey r1)) :=
    List.mem_filter.mpr ⟨h2, by simp [hv2, hkk]⟩
  rcases hfil : rows.filter (fun r => rowValid r && (rowKey r == rowKey r1)) with _ | ⟨r0, rfil⟩
  · rw [hfil] at hm1; simp at hm1
  · rw [hfil] at hmain hm1 hm2
    exact ⟨⟨r0.channel, r0.external_id, r0.customer_name, (r0 :: rfil).map rowLine⟩,
      hmain, List.mem_map_of_mem rowLine hm1, List.mem_map_of_mem rowLine hm2⟩

/-- Witness for C7 (amended): the spec's example CSV — two rows sharing
channel SHOPIFY and external id ORDER1 with distinct SKUs — both land in
the group keyed "SHOPIFY-ORDER1". -/
theorem grouping_same_pair_same_group_witness :
    ∃ g : GroupedOrder,
      (groupRows [⟨"ORDER1", "SHOPIFY", "Ada", "SKU1", some "1"⟩,
          ⟨"ORDER1", "SHOPIFY", "Ada", "SKU2", some "2"⟩]).find?
          (fun p => p.1 == rowKey ⟨"ORDER1", "SHOPIFY", "Ada", "SKU1", some "1"⟩)
        = some (rowKey ⟨"ORDER1", "SHOPIFY", "Ada", "SKU1", some "1"⟩, g)
        ∧ rowLine ⟨"ORDER1", "SHOPIFY", "Ada", "SKU1", some "1"⟩ ∈ g.lines
        ∧ rowLine ⟨"ORDER1", "SHOPIFY", "Ada", "SKU2", some "2"⟩ ∈ g.lines :=
  grouping_same_pair_same_group
    [⟨"ORDER1", "SHOPIFY", "Ada", "SKU1", some "1"⟩,
      ⟨"ORDER1", "SHOPIFY", "Ada", "SKU2", some "2"⟩]
    ⟨"ORDER1", "SHOPIFY", "Ada", "SKU1", some "1"⟩
    ⟨"ORDER1", "SHOPIFY", "Ada", "SKU2", some "2"⟩
    (by simp) (by simp) (by decide) (by decide) rfl rfl

/-- C8 counterexample: a group whose first valid row has an empty
customer name and whose second row has name "Alice" and qty "-3": the
code keeps the empty name (the claim predicts "Alice", the first
non-empty one) and stores qty -3 (the claim predicts 1 for qty ≤ 0). -/
theorem group_record_deviates_from_spec :
    groupRows [⟨"ORDER1", "SHOPIFY", "", "SKU1", some "5"⟩,
          ⟨"ORDER1", "SHOPIFY", "Alice", "SKU2", some "-3"⟩]
        = [("SHOPIFY-ORDER1", ⟨"SHOPIFY", "ORDER1", "", [("SKU1", 5), ("SKU2", -3)]⟩)]
      ∧ specCustomerName ["", "Alice"] = "Alice"
      ∧ ("" : String) ≠ "Alice"
      ∧ specQty (some "-3") = 1
      ∧ parseQty (some "-3") = -3
      ∧ (-3 : Int) ≠ 1 := by decide

/-- C8 amended: every produced group record holds the customer name of
the FIRST valid row of its key (kept even when empty), and one line per
row of the key, each qty being the JS falsy-or of the parse: the parsed
integer when it parses to a nonzero value (negative values kept), and 1
exactly when parsing fails or parses to 0. -/
theorem group_record_contents (rows : List CSVRow) (k : String) (g : GroupedOrder)
    (hfind : (groupRows rows).find? (fun p => p.1 == k) = some (k, g)) :
    (∃ r0 rfil, rows.filter (fun r => rowValid r && (rowKey r == k)) = r0 :: rfil
        ∧ g.customer_name = r0.customer_name
        ∧ g.channel = r0.channel ∧ g.external_id = r0.external_id
        ∧ g.lines = (r0 :: rfil).map rowLine)
      ∧ (∀ q : Option String, qtyParse q = none → parseQty q = 1)
      ∧ (∀ q : Option String, qtyParse q = some 0 → parseQty q = 1)
      ∧ (∀ (q : Option String) (n : Int), qtyParse q = some n → n ≠ 0 → parseQty q = n) := by
  refine ⟨?_, ?_, ?_, ?_⟩
  · have hmain := groupRows_go rows [] k
    simp only [List.find?_nil] at hmain
    rcases hfil : rows.filter (fun r => rowValid r && (rowKey r == k)) with _ | ⟨r0, rfil⟩
    · rw [hfil] at hmain
      unfold groupRows at hfind
      rw [hfind] at hmain
      exact absurd hmain (by simp)
    · rw [hfil] at hmain
      unfold groupRows at hfind
      rw [hfind] at hmain
      have hg : g = ⟨r0.channel, r0.external_id, r0.customer_name, (r0 :: rfil).map rowLine⟩ := by
        have := hmain
        simp only [Option.some.injEq, Prod.mk.injEq] at this
        exact this.2
      exact ⟨r0, rfil, rfl, by rw [hg], by rw [hg], by rw [hg], by rw [hg]⟩
  · intro q hq; unfold parseQty; rw [hq]
  · intro q hq; unfold parseQty; rw [hq]; simp
  · intro q n hq hn; unfold parseQty; rw [hq]; simp [hn]

/-- Witness for C8 (amended) at the deviating CSV itself: the group
under "SHOPIFY-ORDER1" is fully described by the first valid row. -/
theorem group_record_contents_witness :
    (∃ r0 rfil,
        List.filter (fun r => rowValid r && (rowKey r == "SHOPIFY-ORDER1"))
            [⟨"ORDER1", "SHOPIFY", "", "SKU1", some "5"⟩,
              ⟨"ORDER1", "SHOPIFY", "Alice", "SKU2", some "-3"⟩] = r0 :: rfil
        ∧ (GroupedOrder.mk "SHOPIFY" "ORDER1" "" [("SKU1", 5), ("SKU2", -3)]).customer_name
            = r0.customer_name
        ∧ (GroupedOrder.mk "SHOPIFY" "ORDER1" "" [("SKU1", 5), ("SKU2", -3)]).channel = r0.channel
        ∧ (GroupedOrder.mk "SHOPIFY" "ORDER1" "" [("SKU1", 5), ("SKU2", -3)]).external_id
            = r0.external_id
        ∧ (GroupedOrder.mk "SHOPIFY" "ORDER1" "" [("SKU1", 5), ("SKU2", -3)]).lines
            = (r0 :: rfil).map rowLine)
      ∧ (∀ q : Option String, qtyParse q = none → parseQty q = 1)
      ∧ (∀ q : Option String, qtyParse q = some 0 → parseQty q = 1)
      ∧ (∀ (q : Option String) (n : Int), qtyParse q = some n → n ≠ 0 → parseQty q = n) :=
  group_record_contents
    [⟨"ORDER1", "SHOPIFY", "", "SKU1", some "5"⟩,
      ⟨"ORDER1", "SHOPIFY", "Alice", "SKU2", some "-3"⟩]
    "SHOPIFY-ORDER1"
    ⟨"SHOPIFY", "ORDER1", "", [("SKU1", 5), ("SKU2", -3)]⟩
    (by decide)

/-! ### Import deduplication -/

lemma importGroupStep_db (st : ImportState) (g : GroupedOrder) :
    (importGroupStep st g).db = st.db := by
  rcases hf : findExistingOrder st.db g.channel g.external_id with _ | o <;>
    simp only [importGroupStep, hf]
  split <;> rfl

lemma importGroupStep_newOrders (st : ImportState) (g : GroupedOrder) :
    (importGroupStep st g).newOrders = st.newOrders := by
  rcases hf : findExistingOrder st.db g.channel g.external_id with _ | o <;>
    simp only [importGroupStep, hf]
  split <;> rfl

lemma importGroupStep_existing_mono (st : ImportState) (g : GroupedOrder)
    (e : ImportEntry) (he : e ∈ st.existingOrders) :
    e ∈ (importGroupStep st g).existingOrders := by
  rcases hf : findExistingOrder st.db g.channel g.external_id with _ | o <;>
    simp only [importGroupStep, hf]
  · split
    · exact he
    · exact he
  · exact List.mem_append_left _ he

lemma import_fold_db (groups : List GroupedOrder) :
    ∀ st : ImportState, (groups.foldl importGroupStep st).db = st.db := by
  induction groups with
  | nil => intro st; rfl
  | cons g gs ih =>
      intro st
      simp only [List.foldl_cons]
      rw [ih (importGroupStep st g), importGroupStep_db]

lemma import_fold_newOrders (groups : List GroupedOrder) :
    ∀ st : ImportState, (groups.foldl importGroupStep st).newOrders = st.newOrders := by
  induction groups with
  | nil => intro st; rfl
  | cons g gs ih =>
      intro st
      simp only [List.foldl_cons]
      rw [ih (importGroupStep st g), importGroupStep_newOrders]

lemma import_fold_existing_mono (groups : List GroupedOrder) :
    ∀ (st : ImportState) (e : ImportEntry), e ∈ st.existingOrders →
      e ∈ (groups.foldl importGroupStep st).existingOrders := by
  induction groups with
  | nil => intro st e he; exact he
  | cons g gs ih =>
      intro st e he
      simp only [List.foldl_cons]
      exact ih (importGroupStep st g) e (importGroupStep_existing_mono st g e he)

lemma import_fold_records (groups : List GroupedOrder) :
    ∀ st : ImportState, ∀ g ∈ groups, ∀ o : Order,
      findExistingOrder st.db g.channel g.external_id = some o →
      (⟨o.code, g.external_id, g.channel⟩ : ImportEntry)
        ∈ (groups.foldl importGroupStep st).existingOrders := by
  induction groups with
  | nil => intro st g hg; simp at hg
  | cons g0 gs ih =>
      intro st g hg o ho
      simp only [List.foldl_cons]
      rcases List.mem_cons.mp hg with rfl | hgs
      · have hrec : (⟨o.code, g.external_id, g.channel⟩ : ImportEntry)
            ∈ (importGroupStep st g).existingOrders := by
          simp only [importGroupStep, ho]
          exact List.mem_append_right _ (List.mem_singleton_self _)
        exact import_fold_existing_mono gs (importGroupStep st g) _ hrec
      · exact ih (importGroupStep st g0) g hgs o (by rw [importGroupStep_db]; exact ho)

lemma import_fold_existing (groups : List GroupedOrder) :
    ∀ st : ImportState,
    (∀ g ∈ groups, ∃ o, findExistingOrder st.db g.channel g.external_id = some o) →
    groups.foldl importGroupStep st
      = { st with existingOrders := st.existingOrders ++ groups.map (existingEntryFor st.db) } := by
  induction groups with
  | nil => intro st h; simp
  | cons g gs ih =>
      intro st h
      obtain ⟨o, ho⟩ := h g (List.mem_cons_self _ _)
      simp only [List.foldl_cons, List.map_cons]
      have hstep : importGroupStep st g
          = { st with existingOrders := st.existingOrders ++ [⟨o.code, g.external_id, g.channel⟩] } := by
        unfold importGroupStep
        rw [ho]
      rw [hstep,
        ih { st with existingOrders := st.existingOrders ++ [⟨o.code, g.external_id, g.channel⟩] }
          (fun g2 hg2 => h g2 (List.mem_cons_of_mem _ hg2))]
      have hentry : existingEntryFor st.db g = ⟨o.code, g.external_id, g.channel⟩ := by
        unfold existingEntryFor
        rw [ho]
        rfl
      rw [hentry]
      simp

/-- C6: for any batch — mixed batches included — the import leaves the
database (in particular every existing order and order line) exactly as
it was and creates no new order; each group, independently, whose
(channel, external_id) pair matches an already-stored order is recorded
under existing/skipped with that order's code; and when every group of
the batch matches (a re-import of the same CSV after its orders exist)
there is additionally no error and the existing list is exactly one
entry per group. -/
theorem import_skips_existing (groups : List GroupedOrder) (db : ImportDB) :
    (importOrders groups db).db = db
      ∧ (importOrders groups db).newOrders = []
      ∧ (∀ g ∈ groups, ∀ o : Order,
          findExistingOrder db g.channel g.external_id = some o →
          (⟨o.code, g.external_id, g.channel⟩ : ImportEntry)
            ∈ (importOrders groups db).existingOrders)
      ∧ ((∀ g ∈ groups, ∃ o, findExistingOrder db g.channel g.external_id = some o) →
          (importOrders groups db).errors = []
            ∧ (importOrders groups db).existingOrders = groups.map (existingEntryFor db)) := by
  refine ⟨import_fold_db groups ⟨db, [], [], []⟩,
    import_fold_newOrders groups ⟨db, [], [], []⟩,
    fun g hg o ho => import_fold_records groups ⟨db, [], [], []⟩ g hg o ho, ?_⟩
  intro hall
  unfold importOrders
  rw [import_fold_existing groups ⟨db, [], [], []⟩ hall]
  exact ⟨rfl, by simp⟩

/-- Witness for C6: a mixed batch — the stored (SHOPIFY, ORDER1) plus a
group (SHOPIFY, ORDER2) with no stored order — leaves the database
unchanged, creates nothing, and still records ORDER1 under existing;
and the pure re-import of ORDER1 alone yields no error and exactly its
one existing entry. -/
theorem import_skips_existing_witness :
    ((importOrders [⟨"SHOPIFY", "ORDER1", "Ada", [("SKU1", 1)]⟩,
          ⟨"SHOPIFY", "ORDER2", "Bob", [("SKU2", 1)]⟩]
        ⟨[⟨"o1", some "25-X", "SHOPIFY", some "ORDER1", some "Ada", "PENDING", none, none⟩], [], []⟩).db
        = ⟨[⟨"o1", some "25-X", "SHOPIFY", some "ORDER1", some "Ada", "PENDING", none, none⟩], [], []⟩
      ∧ (importOrders [⟨"SHOPIFY", "ORDER1", "Ada", [("SKU1", 1)]⟩,
            ⟨"SHOPIFY", "ORDER2", "Bob", [("SKU2", 1)]⟩]
          ⟨[⟨"o1", some "25-X", "SHOPIFY", some "ORDER1", some "Ada", "PENDING", none, none⟩], [], []⟩).newOrders = []
      ∧ (⟨some "25-X", "ORDER1", "SHOPIFY"⟩ : ImportEntry)
          ∈ (importOrders [⟨"SHOPIFY", "ORDER1", "Ada", [("SKU1", 1)]⟩,
                ⟨"SHOPIFY", "ORDER2", "Bob", [("SKU2", 1)]⟩]
              ⟨[⟨"o1", some "25-X", "SHOPIFY", some "ORDER1", some "Ada", "PENDING", none, none⟩], [], []⟩).existingOrders)
    ∧ ((importOrders [⟨"SHOPIFY", "ORDER1", "Ada", [("SKU1", 1)]⟩]
          ⟨[⟨"o1", some "25-X", "SHOPIFY", some "ORDER1", some "Ada", "PENDING", none, none⟩], [], []⟩).errors = []
      ∧ (importOrders [⟨"SHOPIFY", "ORDER1", "Ada", [("SKU1", 1)]⟩]
          ⟨[⟨"o1", some "25-X", "SHOPIFY", some "ORDER1", some "Ada", "PENDING", none, none⟩], [], []⟩).existingOrders
        = [⟨"SHOPIFY", "ORDER1", "Ada", [("SKU1", 1)]⟩].map (existingEntryFor
            ⟨[⟨"o1", some "25-X", "SHOPIFY", some "ORDER1", some "Ada", "PENDING", none, none⟩], [], []⟩)) := by
  have h1 := import_skips_existing
    [⟨"SHOPIFY", "ORDER1", "Ada", [("SKU1", 1)]⟩, ⟨"SHOPIFY", "ORDER2", "Bob", [("SKU2", 1)]⟩]
    ⟨[⟨"o1", some "25-X", "SHOPIFY", some "ORDER1", some "Ada", "PENDING", none, none⟩], [], []⟩
  have h2 := import_skips_existing
    [⟨"SHOPIFY", "ORDER1", "Ada", [("SKU1", 1)]⟩]
    ⟨[⟨"o1", some "25-X", "SHOPIFY", some "ORDER1", some "Ada", "PENDING", none, none⟩], [], []⟩
  refine ⟨⟨h1.1, h1.2.1, ?_⟩, h2.2.2.2 ?_⟩
  · exact h1.2.2.1 ⟨"SHOPIFY", "ORDER1", "Ada", [("SKU1", 1)]⟩ (by simp)
      ⟨"o1", some "25-X", "SHOPIFY", some "ORDER1", some "Ada", "PENDING", none, none⟩
      (by decide)
  · intro g hg
    simp only [List.mem_singleton] at hg
    subst hg
    exact ⟨⟨"o1", some "25-X", "SHOPIFY", some "ORDER1", some "Ada", "PENDING", none, none⟩,
      by decide⟩

end Tally
